import Mathlib

/-!
Shallow embedding of the allocation-and-turnover engine of
src/etf_dualmomentum.py, together with proofs about it.

Currency amounts, prices and weight fractions are embedded as exact
rationals.  The script formats currency amounts into display strings with
a format of zero decimal places and later re-parses those strings for the
turnover computation (lines 234 and 243 to 244 of the source); that
format-and-parse round trip is exactly rounding to the nearest integer
with ties going to the even integer (the rounding rule of both the Python
round builtin and the fixed-point string format), and is embedded here as
the function rnd.
-/

namespace TradeSetup

/-- Metrics for one instrument as returned by fetch_etf_metrics in the
source (line 112): last price, 200-day moving average, one-year average
price, and an optional six-month return percentage. -/
structure Metrics where
  price : ℚ
  ma200 : ℚ
  avg1y : ℚ
  r6m : Option ℚ
deriving DecidableEq, Repr

/-- The three valuation buckets of classify_valuation (source lines 114
to 121). -/
inductive Valuation where
  | Overvalued : Valuation
  | Undervalued : Valuation
  | Fair : Valuation
deriving DecidableEq, Repr

/-- classify_valuation from source lines 114 to 121: Overvalued when the
latest price exceeds 1.2 times the one-year average, Undervalued when it
is below 0.9 times that average, Fair otherwise. -/
def classify_valuation (latest avg1y : ℚ) : Valuation :=
  if latest > avg1y * (6/5) then Valuation.Overvalued
  else if latest < avg1y * (9/10) then Valuation.Undervalued
  else Valuation.Fair

/-- The designated safe instrument, hard coded in the source (lines 172
and 185). -/
def SAFE : String := "LIQUIDBEES"

/-- Lookup in an association list built by repeated dictionary
assignment: the latest binding of a key wins, a missing key yields 0.
This models dict.get(key, 0.0) on a dict built by successive
assignments. -/
def dget (l : List (String × ℚ)) (k : String) : ℚ :=
  ((l.reverse).lookup k).getD 0

/-- core_targets from source lines 156 to 162: for every bucket with a
defined within-bucket weight mapping, each listed instrument receives
bucket target fraction times within-bucket fraction; buckets without a
within-bucket mapping are skipped. -/
def core_targets (bucket_targets : List (String × ℚ))
    (within : String → Option (List (String × ℚ))) : List (String × ℚ) :=
  bucket_targets.foldl
    (fun acc bw =>
      match within bw.1 with
      | none => acc
      | some ws => acc ++ ws.map (fun ew => (ew.1, bw.2 * ew.2)))
    []

/-- The per-instrument eligibility test of the momentum candidate loop,
source lines 166 to 175: metrics must be present, the instrument must
not be the safe instrument, the six-month return must be present and
strictly positive, the valuation must not be Overvalued, and the latest
price must be strictly above the 200-day moving average.  Returns the
candidate pair of name and six-month return when eligible. -/
def candidate_of (metrics : String → Option Metrics) (name : String) :
    Option (String × ℚ) :=
  match metrics name with
  | none => none
  | some m =>
    if name = SAFE then none
    else
      match m.r6m with
      | none => none
      | some r =>
        if classify_valuation m.price m.avg1y ≠ Valuation.Overvalued ∧
            m.ma200 < m.price ∧ 0 < r
        then some (name, r)
        else none

/-- momentum_candidates from source lines 165 to 175: the eligible
candidates in instrument iteration order. -/
def momentum_candidates (names : List String)
    (metrics : String → Option Metrics) : List (String × ℚ) :=
  names.filterMap (candidate_of metrics)

/-- The ordering used by the candidate sort at source line 177: a comes
before b when the six-month return of a is at least that of b. -/
def keyGE (a b : String × ℚ) : Prop := b.2 ≤ a.2

instance : DecidableRel keyGE := fun a b => inferInstanceAs (Decidable (b.2 ≤ a.2))

instance : IsTotal (String × ℚ) keyGE := ⟨fun a b => le_total b.2 a.2⟩

instance : IsTrans (String × ℚ) keyGE := ⟨fun _ _ _ h1 h2 => le_trans h2 h1⟩

/-- The candidate list sorted by six-month return, descending, stable,
as done at source line 177.  A stable sort is a function of the input
list and the key order alone, so insertion sort is an exact model of the
sort used by the source. -/
def sorted_candidates (names : List String)
    (metrics : String → Option Metrics) : List (String × ℚ) :=
  List.insertionSort keyGE (momentum_candidates names metrics)

/-- tactical_allocation from source lines 179 to 186: every instrument
gets 0, except that the head of the sorted candidate list gets the
momentum fraction, or, when there is no candidate, the safe instrument
gets it. -/
def tactical_allocation (names : List String)
    (metrics : String → Option Metrics) (pct : ℚ) : String → ℚ :=
  match sorted_candidates names metrics with
  | [] => fun etf => if etf = SAFE then pct else 0
  | top :: _ => fun etf => if etf = top.1 then pct else 0

/-- Whether the blending loop classifies an instrument as Overvalued,
source lines 193 to 197: absent metrics never count as Overvalued. -/
def overvaluedAt (metrics : String → Option Metrics) (etf : String) : Bool :=
  match metrics etf with
  | some m => classify_valuation m.price m.avg1y == Valuation.Overvalued
  | none => false

/-- The blended target of one instrument before normalization, source
lines 189 to 199: core weight plus tactical weight, with the tactical
term forced to 0 for an Overvalued instrument. -/
def final_target_raw (core tact : String → ℚ)
    (metrics : String → Option Metrics) (etf : String) : ℚ :=
  core etf + (if overvaluedAt metrics etf then 0 else tact etf)

/-- The sum of the blended targets over all instruments, source
line 202. -/
def sum_raw (names : List String) (core tact : String → ℚ)
    (metrics : String → Option Metrics) : ℚ :=
  (names.map (final_target_raw core tact metrics)).sum

/-- The normalized final target of one instrument, source lines 201 to
205: when the raw sum exceeds 1 every weight is divided by that sum,
otherwise weights are left as computed. -/
def final_target (names : List String) (core tact : String → ℚ)
    (metrics : String → Option Metrics) (etf : String) : ℚ :=
  if sum_raw names core tact metrics > 1
  then final_target_raw core tact metrics etf / sum_raw names core tact metrics
  else final_target_raw core tact metrics etf

/-- Rounding to the nearest integer with ties to the even integer.  This
is the rounding rule applied by the source whenever a currency amount is
pushed through a zero-decimal display string and parsed back (the format
at lines 228 to 229 and 254, the parse at lines 234 and 243 to 244), and
also by the round builtin at lines 251 to 254. -/
def rnd (x : ℚ) : ℤ :=
  if Int.fract x < 1/2 then ⌊x⌋
  else if 1/2 < Int.fract x then ⌊x⌋ + 1
  else if ⌊x⌋ % 2 = 0 then ⌊x⌋ else ⌊x⌋ + 1

/-- The action label computed from a trade delta, source lines 214 to
219 and 248 to 253: HOLD inside the deadband of 1000, otherwise BUY or
SELL carrying the rounded amount that the source embeds in the label. -/
inductive Action where
  | HOLD : Action
  | BUY : ℤ → Action
  | SELL : ℤ → Action
deriving DecidableEq, Repr

/-- classify applies the deadband rule of source lines 214 to 219: an
absolute delta below 1000 is a HOLD, a positive delta a BUY, a negative
delta a SELL. -/
def classify (diff : ℚ) : Action :=
  if |diff| < 1000 then Action.HOLD
  else if diff > 0 then Action.BUY (rnd diff)
  else Action.SELL (rnd (-diff))

/-- One record of the output list built at source lines 208 to 231.  The
fields cur and tgt hold the numeric values that the turnover step
recovers by parsing the display strings Current and Target, hence both
are whole-number rationals produced by rnd. -/
structure OutRow where
  etf : String
  cur : ℚ
  tgt : ℚ
  action : Action
deriving DecidableEq, Repr

/-- The output list of source lines 208 to 231: one row per instrument,
with the target amount equal to total portfolio value times the final
target weight, the action classified from the unrounded delta, and the
stored amounts rounded by the display format. -/
def make_output (names : List String) (final : String → ℚ) (total : ℚ)
    (holds : String → ℚ) : List OutRow :=
  names.map (fun etf =>
    { etf := etf
      cur := ((rnd (holds etf) : ℤ) : ℚ)
      tgt := ((rnd (total * final etf) : ℤ) : ℚ)
      action := classify (total * final etf - holds etf) })

/-- MAX_TURNOVER_PCT from source line 91. -/
def MAX_TURNOVER_PCT : ℚ := 1/5

/-- turnover_limit from source line 236: the turnover cap is the maximum
turnover fraction times the total portfolio value. -/
def turnover_limit (total : ℚ) : ℚ := MAX_TURNOVER_PCT * total

/-- total_proposed_turnover from source lines 234 to 235: the sum over
all rows, HOLD rows included, of the absolute difference between the
parsed target and current amounts. -/
def proposed_turnover (out : List OutRow) : ℚ :=
  (out.map (fun o => |o.tgt - o.cur|)).sum

/-- The scaled delta of one row, source lines 245 to 246: the parsed
delta times the scale factor. -/
def scaled_delta (scale : ℚ) (o : OutRow) : ℚ := (o.tgt - o.cur) * scale

/-- The rewrite of one row when scaling triggers, source lines 242 to
255: the target becomes the current amount plus the scaled delta,
rounded by the display format; the action is reclassified from the
scaled delta; the current amount is untouched. -/
def scale_row (scale : ℚ) (o : OutRow) : OutRow :=
  { o with
    tgt := ((rnd (o.cur + scaled_delta scale o) : ℤ) : ℚ)
    action := classify (scaled_delta scale o) }

/-- The turnover limiter, source lines 233 to 257: when the proposed
turnover strictly exceeds the limit and is strictly positive, every row
is rewritten with the scale factor limit divided by proposed turnover;
otherwise the output is unchanged. -/
def limit_turnover (limit : ℚ) (out : List OutRow) : List OutRow :=
  if proposed_turnover out > limit ∧ proposed_turnover out > 0
  then out.map (scale_row (limit / proposed_turnover out))
  else out

/-! ## Shared helper lemmas -/

/-- Dividing every mapped value by a constant divides the mapped sum. -/
theorem list_sum_map_div {α : Type} (l : List α) (f : α → ℚ) (c : ℚ) :
    (l.map (fun a => f a / c)).sum = (l.map f).sum / c := by
  induction l with
  | nil => simp
  | cons a t ih => simp [ih, add_div]

/-- Multiplying every mapped value by a constant multiplies the mapped
sum. -/
theorem list_sum_map_mul_right {α : Type} (l : List α) (f : α → ℚ) (c : ℚ) :
    (l.map (fun a => f a * c)).sum = (l.map f).sum * c := by
  induction l with
  | nil => simp
  | cons a t ih => simp [ih, add_mul]

/-- Inversion for the eligibility test: a produced candidate pair names
an instrument of the scanned set with present metrics, a present and
strictly positive six-month return, a valuation other than Overvalued,
an uptrend, and it is never the safe instrument. -/
theorem candidate_of_eq_some {metrics : String → Option Metrics} {name : String}
    {p : String × ℚ} (h : candidate_of metrics name = some p) :
    p.1 = name ∧ name ≠ SAFE ∧ ∃ m, metrics name = some m ∧ m.r6m = some p.2 ∧
      classify_valuation m.price m.avg1y ≠ Valuation.Overvalued ∧
      m.ma200 < m.price ∧ 0 < p.2 := by
  unfold candidate_of at h
  split at h
  · exact absurd h (by simp)
  · rename_i m hm
    split at h
    · exact absurd h (by simp)
    · rename_i hs
      split at h
      · exact absurd h (by simp)
      · rename_i r hr
        split at h
        · rename_i hc
          cases h
          exact ⟨rfl, hs, m, hm, hr, hc.1, hc.2.1, hc.2.2⟩
        · exact absurd h (by simp)

/-- The sorted candidate list is empty exactly when the candidate list
is. -/
theorem sorted_candidates_eq_nil_iff {names : List String}
    {metrics : String → Option Metrics} :
    sorted_candidates names metrics = [] ↔ momentum_candidates names metrics = [] := by
  constructor
  · intro h
    have hperm := List.perm_insertionSort keyGE (momentum_candidates names metrics)
    rw [sorted_candidates] at h
    rw [h] at hperm
    exact hperm.symm.eq_nil
  · intro h
    rw [sorted_candidates, h]
    rfl

/-- The head of the sorted candidate list is a candidate and carries the
greatest six-month return of all candidates. -/
theorem head_sorted_max {names : List String} {metrics : String → Option Metrics}
    {top : String × ℚ} {rest : List (String × ℚ)}
    (h : sorted_candidates names metrics = top :: rest) :
    top ∈ momentum_candidates names metrics ∧
      ∀ p ∈ momentum_candidates names metrics, p.2 ≤ top.2 := by
  have hperm := List.perm_insertionSort keyGE (momentum_candidates names metrics)
  rw [sorted_candidates] at h
  constructor
  · have hmem : top ∈ List.insertionSort keyGE (momentum_candidates names metrics) := by
      rw [h]; exact List.mem_cons_self _ _
    exact hperm.subset hmem
  · intro p hp
    have hp' : p ∈ top :: rest := by
      rw [← h]; exact hperm.symm.subset hp
    rcases List.mem_cons.mp hp' with heq | hmem
    · rw [heq]
    · have hsorted := List.sorted_insertionSort keyGE (momentum_candidates names metrics)
      rw [h] at hsorted
      exact List.rel_of_sorted_cons hsorted p hmem

/-- The limiter leaves the output unchanged when its trigger condition
fails (the else branch of source line 238). -/
theorem limit_turnover_of_not_trigger (limit : ℚ) (out : List OutRow)
    (h : ¬(proposed_turnover out > limit ∧ proposed_turnover out > 0)) :
    limit_turnover limit out = out := by
  unfold limit_turnover
  exact if_neg h

/-- Rounding an integer-valued rational returns that integer. -/
theorem rnd_intCast (k : ℤ) : rnd ((k : ℤ) : ℚ) = k := by
  unfold rnd
  rw [Int.fract_intCast, Int.floor_intCast]
  norm_num

/-! ## Claim theorems -/

/-- C1: the sum of the final target weights is at most 1; when the raw
blended sum exceeds 1 every weight is divided by that sum and the total
becomes exactly 1, otherwise every weight is left exactly as computed
(source lines 201 to 205). -/
theorem final_targets_sum_normalized (names : List String) (core tact : String → ℚ)
    (metrics : String → Option Metrics) :
    (∀ etf, final_target names core tact metrics etf =
      (if sum_raw names core tact metrics > 1
       then final_target_raw core tact metrics etf / sum_raw names core tact metrics
       else final_target_raw core tact metrics etf)) ∧
    (names.map (final_target names core tact metrics)).sum =
      (if sum_raw names core tact metrics > 1 then 1
       else sum_raw names core tact metrics) ∧
    (names.map (final_target names core tact metrics)).sum ≤ 1 := by
  have hsum : (names.map (final_target names core tact metrics)).sum =
      (if sum_raw names core tact metrics > 1 then 1
       else sum_raw names core tact metrics) := by
    by_cases h : sum_raw names core tact metrics > 1
    · rw [if_pos h]
      have hne : sum_raw names core tact metrics ≠ 0 :=
        ne_of_gt (lt_trans one_pos h)
      have hmap : names.map (final_target names core tact metrics) =
          names.map (fun etf => final_target_raw core tact metrics etf /
            sum_raw names core tact metrics) := by
        apply List.map_congr_left
        intro a _
        simp only [final_target]
        rw [if_pos h]
      rw [hmap, list_sum_map_div]
      exact div_self hne
    · rw [if_neg h]
      have hmap : names.map (final_target names core tact metrics) =
          names.map (final_target_raw core tact metrics) := by
        apply List.map_congr_left
        intro a _
        simp only [final_target]
        rw [if_neg h]
      rw [hmap]
      rfl
  refine ⟨fun _ => rfl, hsum, ?_⟩
  rw [hsum]
  by_cases h : sum_raw names core tact metrics > 1
  · rw [if_pos h]
  · rw [if_neg h]
    exact le_of_not_lt h

/-- C5: for an instrument whose present metrics classify as Overvalued,
the blended target keeps the core component unchanged and drops the
tactical component entirely, whatever tactical weight was assigned
(source lines 189 to 199). -/
theorem overvalued_zeroes_tactical (core tact : String → ℚ)
    (metrics : String → Option Metrics) (etf : String) (m : Metrics)
    (hm : metrics etf = some m)
    (hv : classify_valuation m.price m.avg1y = Valuation.Overvalued) :
    final_target_raw core tact metrics etf = core etf := by
  unfold final_target_raw overvaluedAt
  rw [hm]
  simp [hv]

/-- Witness for C5 at a concrete Overvalued instrument: price 130
against a one-year average of 100 exceeds the 1.2 threshold, and the
blended target of the instrument equals its core weight alone. -/
theorem overvalued_zeroes_tactical_witness :
    (fun _ : String => some (Metrics.mk 130 100 100 none)) "GOLDBEES" =
      some (Metrics.mk 130 100 100 none) ∧
    classify_valuation (130 : ℚ) 100 = Valuation.Overvalued ∧
    final_target_raw (fun _ => 3/20) (fun _ => 1/20)
      (fun _ => some (Metrics.mk 130 100 100 none)) "GOLDBEES" = (3/20 : ℚ) := by
  refine ⟨rfl, ?_, ?_⟩
  · unfold classify_valuation
    norm_num
  · exact overvalued_zeroes_tactical (fun _ => 3/20) (fun _ => 1/20)
      (fun _ => some (Metrics.mk 130 100 100 none)) "GOLDBEES"
      (Metrics.mk 130 100 100 none) rfl (by unfold classify_valuation; norm_num)

/-- C2: whenever the scaling step triggers, the sum over all rows of the
absolute scaled deltas is at most the turnover limit, the maximum
turnover fraction times the total portfolio value (source lines 238 to
246).  The total portfolio value is a sum of nonnegative currency
holdings, hence the nonnegativity hypothesis. -/
theorem turnover_scaling_bounded (total : ℚ) (out : List OutRow)
    (htot : 0 ≤ total)
    (htr : proposed_turnover out > turnover_limit total ∧ proposed_turnover out > 0) :
    (out.map (fun o =>
      |scaled_delta (turnover_limit total / proposed_turnover out) o|)).sum ≤
      turnover_limit total := by
  obtain ⟨hgt, hpos⟩ := htr
  have hL : 0 ≤ turnover_limit total := by
    unfold turnover_limit MAX_TURNOVER_PCT
    positivity
  have hscale : 0 ≤ turnover_limit total / proposed_turnover out :=
    div_nonneg hL (le_of_lt hpos)
  have hmap : out.map (fun o =>
      |scaled_delta (turnover_limit total / proposed_turnover out) o|) =
      out.map (fun o => |o.tgt - o.cur| *
        (turnover_limit total / proposed_turnover out)) := by
    apply List.map_congr_left
    intro o _
    rw [scaled_delta, abs_mul, abs_of_nonneg hscale]
  have hsum : (out.map (fun o =>
      |scaled_delta (turnover_limit total / proposed_turnover out) o|)).sum =
      proposed_turnover out * (turnover_limit total / proposed_turnover out) := by
    rw [hmap, list_sum_map_mul_right]
    rfl
  rw [hsum, mul_div_cancel₀ _ (ne_of_gt hpos)]

/-- Witness for C2: a single row with parsed delta 2000 against a
portfolio of 5000 triggers the cap of 1000, and the scaled absolute
delta sums to the limit. -/
theorem turnover_scaling_bounded_witness :
    (0 : ℚ) ≤ 5000 ∧
    (proposed_turnover [OutRow.mk "NIFTYBEES" 0 2000 (Action.BUY 2000)] >
      turnover_limit 5000 ∧
     proposed_turnover [OutRow.mk "NIFTYBEES" 0 2000 (Action.BUY 2000)] > 0) ∧
    ([OutRow.mk "NIFTYBEES" 0 2000 (Action.BUY 2000)].map (fun o =>
      |scaled_delta (turnover_limit 5000 /
        proposed_turnover [OutRow.mk "NIFTYBEES" 0 2000 (Action.BUY 2000)]) o|)).sum ≤
      turnover_limit 5000 := by
  have htr : proposed_turnover [OutRow.mk "NIFTYBEES" 0 2000 (Action.BUY 2000)] >
      turnover_limit 5000 ∧
      proposed_turnover [OutRow.mk "NIFTYBEES" 0 2000 (Action.BUY 2000)] > 0 := by
    constructor <;>
      norm_num [proposed_turnover, turnover_limit, MAX_TURNOVER_PCT]
  exact ⟨by norm_num, htr,
    turnover_scaling_bounded 5000 [OutRow.mk "NIFTYBEES" 0 2000 (Action.BUY 2000)]
      (by norm_num) htr⟩

/-- C3: for a positive portfolio value, the limiter never changes any
row when its trigger fails, and when it triggers every scaled delta
keeps the sign of the parsed delta and never exceeds it in magnitude
(source lines 238 to 246). -/
theorem limiter_sign_magnitude (total : ℚ) (out : List OutRow) (htot : 0 < total) :
    (¬(proposed_turnover out > turnover_limit total ∧ proposed_turnover out > 0) →
      limit_turnover (turnover_limit total) out = out) ∧
    ((proposed_turnover out > turnover_limit total ∧ proposed_turnover out > 0) →
      limit_turnover (turnover_limit total) out =
        out.map (scale_row (turnover_limit total / proposed_turnover out)) ∧
      ∀ o ∈ out,
        (0 < o.tgt - o.cur →
          0 < scaled_delta (turnover_limit total / proposed_turnover out) o) ∧
        (o.tgt - o.cur < 0 →
          scaled_delta (turnover_limit total / proposed_turnover out) o < 0) ∧
        (o.tgt - o.cur = 0 →
          scaled_delta (turnover_limit total / proposed_turnover out) o = 0) ∧
        |scaled_delta (turnover_limit total / proposed_turnover out) o| ≤
          |o.tgt - o.cur|) := by
  constructor
  · intro h
    exact limit_turnover_of_not_trigger _ _ h
  · intro htr
    obtain ⟨hgt, hpos⟩ := htr
    have hL : 0 < turnover_limit total := by
      unfold turnover_limit MAX_TURNOVER_PCT
      positivity
    have hscale : 0 < turnover_limit total / proposed_turnover out :=
      div_pos hL hpos
    have hscale1 : turnover_limit total / proposed_turnover out ≤ 1 :=
      le_of_lt ((div_lt_one hpos).mpr hgt)
    constructor
    · unfold limit_turnover
      exact if_pos ⟨hgt, hpos⟩
    · intro o _
      refine ⟨?_, ?_, ?_, ?_⟩
      · intro hd
        exact mul_pos hd hscale
      · intro hd
        exact mul_neg_of_neg_of_pos hd hscale
      · intro hd
        rw [scaled_delta, hd, zero_mul]
      · rw [scaled_delta, abs_mul, abs_of_nonneg (le_of_lt hscale)]
        exact mul_le_of_le_one_right (abs_nonneg _) hscale1

/-- Witness for C3: with portfolio value 5000 the cap is 1000; a BUY
delta of 2000 and a SELL delta of 500 trigger scaling, and the theorem
applies. -/
theorem limiter_sign_magnitude_witness :
    (0 : ℚ) < 5000 ∧
    ((¬(proposed_turnover [OutRow.mk "NIFTYBEES" 0 2000 (Action.BUY 2000),
          OutRow.mk "MON100" 500 0 (Action.SELL 500)] > turnover_limit 5000 ∧
        proposed_turnover [OutRow.mk "NIFTYBEES" 0 2000 (Action.BUY 2000),
          OutRow.mk "MON100" 500 0 (Action.SELL 500)] > 0) →
      limit_turnover (turnover_limit 5000)
          [OutRow.mk "NIFTYBEES" 0 2000 (Action.BUY 2000),
           OutRow.mk "MON100" 500 0 (Action.SELL 500)] =
        [OutRow.mk "NIFTYBEES" 0 2000 (Action.BUY 2000),
         OutRow.mk "MON100" 500 0 (Action.SELL 500)]) ∧
    ((proposed_turnover [OutRow.mk "NIFTYBEES" 0 2000 (Action.BUY 2000),
          OutRow.mk "MON100" 500 0 (Action.SELL 500)] > turnover_limit 5000 ∧
      proposed_turnover [OutRow.mk "NIFTYBEES" 0 2000 (Action.BUY 2000),
          OutRow.mk "MON100" 500 0 (Action.SELL 500)] > 0) →
      limit_turnover (turnover_limit 5000)
          [OutRow.mk "NIFTYBEES" 0 2000 (Action.BUY 2000),
           OutRow.mk "MON100" 500 0 (Action.SELL 500)] =
        [OutRow.mk "NIFTYBEES" 0 2000 (Action.BUY 2000),
         OutRow.mk "MON100" 500 0 (Action.SELL 500)].map
          (scale_row (turnover_limit 5000 /
            proposed_turnover [OutRow.mk "NIFTYBEES" 0 2000 (Action.BUY 2000),
              OutRow.mk "MON100" 500 0 (Action.SELL 500)])) ∧
      ∀ o ∈ [OutRow.mk "NIFTYBEES" 0 2000 (Action.BUY 2000),
          OutRow.mk "MON100" 500 0 (Action.SELL 500)],
        (0 < o.tgt - o.cur →
          0 < scaled_delta (turnover_limit 5000 /
            proposed_turnover [OutRow.mk "NIFTYBEES" 0 2000 (Action.BUY 2000),
              OutRow.mk "MON100" 500 0 (Action.SELL 500)]) o) ∧
        (o.tgt - o.cur < 0 →
          scaled_delta (turnover_limit 5000 /
            proposed_turnover [OutRow.mk "NIFTYBEES" 0 2000 (Action.BUY 2000),
              OutRow.mk "MON100" 500 0 (Action.SELL 500)]) o < 0) ∧
        (o.tgt - o.cur = 0 →
          scaled_delta (turnover_limit 5000 /
            proposed_turnover [OutRow.mk "NIFTYBEES" 0 2000 (Action.BUY 2000),
              OutRow.mk "MON100" 500 0 (Action.SELL 500)]) o = 0) ∧
        |scaled_delta (turnover_limit 5000 /
            proposed_turnover [OutRow.mk "NIFTYBEES" 0 2000 (Action.BUY 2000),
              OutRow.mk "MON100" 500 0 (Action.SELL 500)]) o| ≤
          |o.tgt - o.cur|)) :=
  ⟨by norm_num,
    limiter_sign_magnitude 5000
      [OutRow.mk "NIFTYBEES" 0 2000 (Action.BUY 2000),
       OutRow.mk "MON100" 500 0 (Action.SELL 500)] (by norm_num)⟩

/-- C4: with a positive momentum fraction there is exactly one
instrument with a nonzero tactical allocation, and it receives exactly
the momentum fraction: the eligible candidate with the greatest
six-month return when one exists, the safe instrument otherwise; every
other instrument gets 0 (source lines 164 to 186). -/
theorem tactical_unique_winner (names : List String)
    (metrics : String → Option Metrics) (pct : ℚ) (hp : 0 < pct) :
    ∃ w : String,
      tactical_allocation names metrics pct w = pct ∧
      tactical_allocation names metrics pct w ≠ 0 ∧
      (∀ etf, etf ≠ w → tactical_allocation names metrics pct etf = 0) ∧
      (momentum_candidates names metrics = [] → w = SAFE) ∧
      (momentum_candidates names metrics ≠ [] →
        w ∈ names ∧ w ≠ SAFE ∧
        ∃ m r, metrics w = some m ∧
          classify_valuation m.price m.avg1y ≠ Valuation.Overvalued ∧
          m.ma200 < m.price ∧ m.r6m = some r ∧ 0 < r ∧
          ∀ p ∈ momentum_candidates names metrics, p.2 ≤ r) := by
  cases hs : sorted_candidates names metrics with
  | nil =>
    have hcand : momentum_candidates names metrics = [] :=
      sorted_candidates_eq_nil_iff.mp hs
    refine ⟨SAFE, ?_, ?_, ?_, fun _ => rfl, fun hne => absurd hcand hne⟩
    · simp [tactical_allocation, hs]
    · simp [tactical_allocation, hs]
      exact ne_of_gt hp
    · intro etf hne
      simp [tactical_allocation, hs, hne]
  | cons top rest =>
    obtain ⟨hmem, hmax⟩ := head_sorted_max hs
    obtain ⟨a, ha, hca⟩ := List.mem_filterMap.mp hmem
    obtain ⟨hfst, hsafe, m, hm, hr6, hval, hup, hpos⟩ := candidate_of_eq_some hca
    refine ⟨top.1, ?_, ?_, ?_, ?_, ?_⟩
    · simp [tactical_allocation, hs]
    · simp [tactical_allocation, hs]
      exact ne_of_gt hp
    · intro etf hne
      simp [tactical_allocation, hs, hne]
    · intro hnil
      exact absurd ((sorted_candidates_eq_nil_iff.mpr hnil).symm.trans hs) (by simp)
    · intro _
      refine ⟨?_, ?_, m, top.2, ?_, hval, hup, hr6, hpos, hmax⟩
      · rw [hfst]; exact ha
      · rw [hfst]; exact hsafe
      · rw [hfst]; exact hm

/-- Witness for C4 at a concrete run: one eligible instrument with a
positive six-month return, a fair valuation and an uptrend, and a
positive momentum fraction. -/
theorem tactical_unique_winner_witness :
    (0 : ℚ) < 1/20 ∧
    (∃ w : String,
      tactical_allocation ["NIFTYBEES", "MON100"]
        (fun n => if n = "NIFTYBEES" then some (Metrics.mk 100 90 100 (some 5)) else none)
        (1/20) w = 1/20 ∧
      tactical_allocation ["NIFTYBEES", "MON100"]
        (fun n => if n = "NIFTYBEES" then some (Metrics.mk 100 90 100 (some 5)) else none)
        (1/20) w ≠ 0 ∧
      (∀ etf, etf ≠ w → tactical_allocation ["NIFTYBEES", "MON100"]
        (fun n => if n = "NIFTYBEES" then some (Metrics.mk 100 90 100 (some 5)) else none)
        (1/20) etf = 0) ∧
      (momentum_candidates ["NIFTYBEES", "MON100"]
        (fun n => if n = "NIFTYBEES" then some (Metrics.mk 100 90 100 (some 5)) else none) =
          [] → w = SAFE) ∧
      (momentum_candidates ["NIFTYBEES", "MON100"]
        (fun n => if n = "NIFTYBEES" then some (Metrics.mk 100 90 100 (some 5)) else none) ≠
          [] →
        w ∈ ["NIFTYBEES", "MON100"] ∧ w ≠ SAFE ∧
        ∃ m r, (fun n => if n = "NIFTYBEES" then some (Metrics.mk 100 90 100 (some 5)) else none) w = some m ∧
          classify_valuation m.price m.avg1y ≠ Valuation.Overvalued ∧
          m.ma200 < m.price ∧ m.r6m = some r ∧ 0 < r ∧
          ∀ p ∈ momentum_candidates ["NIFTYBEES", "MON100"]
            (fun n => if n = "NIFTYBEES" then some (Metrics.mk 100 90 100 (some 5)) else none),
            p.2 ≤ r)) :=
  ⟨by norm_num,
    tactical_unique_winner ["NIFTYBEES", "MON100"]
      (fun n => if n = "NIFTYBEES" then some (Metrics.mk 100 90 100 (some 5)) else none)
      (1/20) (by norm_num)⟩

/-- C10: whenever the candidate list is nonempty the selected winner is
not classified Overvalued, so the override of the blender never cancels
a selected candidate: its blended target is its core weight plus the
full momentum fraction.  When no candidate exists the fallback grants
the momentum fraction to the safe instrument with no valuation check,
and the override zeroes exactly that fallback when the safe instrument
is Overvalued (source lines 172 to 199). -/
theorem override_spares_selected (names : List String)
    (metrics : String → Option Metrics) (pct : ℚ) (core : String → ℚ) :
    (∀ top rest, sorted_candidates names metrics = top :: rest →
      overvaluedAt metrics top.1 = false ∧
      final_target_raw core (tactical_allocation names metrics pct) metrics top.1 =
        core top.1 + pct) ∧
    (sorted_candidates names metrics = [] →
      tactical_allocation names metrics pct SAFE = pct ∧
      (overvaluedAt metrics SAFE = true →
        final_target_raw core (tactical_allocation names metrics pct) metrics SAFE =
          core SAFE)) := by
  constructor
  · intro top rest hs
    obtain ⟨hmem, _⟩ := head_sorted_max hs
    obtain ⟨a, _, hca⟩ := List.mem_filterMap.mp hmem
    obtain ⟨hfst, _, m, hm, _, hval, _, _⟩ := candidate_of_eq_some hca
    have hov : overvaluedAt metrics top.1 = false := by
      rw [hfst]
      unfold overvaluedAt
      rw [hm]
      simp [hval]
    refine ⟨hov, ?_⟩
    unfold final_target_raw
    rw [hov]
    simp [tactical_allocation, hs]
  · intro hs
    have htact : tactical_allocation names metrics pct SAFE = pct := by
      simp [tactical_allocation, hs]
    refine ⟨htact, ?_⟩
    intro hov
    unfold final_target_raw
    rw [hov]
    simp

/-- Witness for C10 at a concrete run with one eligible candidate: the
sorted candidate list is that singleton, the winner is not Overvalued,
and its blended target is core weight plus the momentum fraction. -/
theorem override_spares_selected_witness :
    sorted_candidates ["NIFTYBEES"]
        (fun _ => some (Metrics.mk 100 90 100 (some 5))) = [("NIFTYBEES", 5)] ∧
    overvaluedAt (fun _ => some (Metrics.mk 100 90 100 (some 5))) "NIFTYBEES" = false ∧
    final_target_raw (fun _ => 9/20)
        (tactical_allocation ["NIFTYBEES"]
          (fun _ => some (Metrics.mk 100 90 100 (some 5))) (1/20))
        (fun _ => some (Metrics.mk 100 90 100 (some 5))) "NIFTYBEES" =
      (9/20 : ℚ) + 1/20 := by
  have hs : sorted_candidates ["NIFTYBEES"]
      (fun _ => some (Metrics.mk 100 90 100 (some 5))) = [("NIFTYBEES", 5)] := by
    norm_num [sorted_candidates, momentum_candidates, candidate_of, SAFE,
      classify_valuation, List.insertionSort, List.filterMap_cons, List.filterMap_nil]
  have happ := (override_spares_selected ["NIFTYBEES"]
      (fun _ => some (Metrics.mk 100 90 100 (some 5))) (1/20)
      (fun _ => 9/20)).1 ("NIFTYBEES", 5) [] hs
  exact ⟨hs, happ.1, happ.2⟩

/-- C6 counterexample: the limiter is not idempotent.  With a cap of
1000 (portfolio value 5000) and parsed deltas 1979 and 21, the first
pass scales by one half and the rewritten targets round 989.5 up to 990
and 11.5 up to 12; the re-parsed turnover of the result is 1001, which
exceeds the cap again, so a second pass rescales and moves the first
target from 990 to 989. -/
theorem limiter_not_idempotent :
    limit_turnover (turnover_limit 5000)
        (limit_turnover (turnover_limit 5000)
          [OutRow.mk "NIFTYBEES" 0 1979 (Action.BUY 1979),
           OutRow.mk "BANKBEES" 1 22 Action.HOLD]) ≠
      limit_turnover (turnover_limit 5000)
        [OutRow.mk "NIFTYBEES" 0 1979 (Action.BUY 1979),
         OutRow.mk "BANKBEES" 1 22 Action.HOLD] := by
  have h1 : limit_turnover (turnover_limit 5000)
      [OutRow.mk "NIFTYBEES" 0 1979 (Action.BUY 1979),
       OutRow.mk "BANKBEES" 1 22 Action.HOLD] =
      [OutRow.mk "NIFTYBEES" 0 990 Action.HOLD,
       OutRow.mk "BANKBEES" 1 12 Action.HOLD] := by
    norm_num [limit_turnover, turnover_limit, MAX_TURNOVER_PCT, proposed_turnover,
      scale_row, scaled_delta, classify, rnd, Int.fract, abs_div, abs_neg]
  rw [h1]
  norm_num [limit_turnover, turnover_limit, MAX_TURNOVER_PCT, proposed_turnover,
    scale_row, scaled_delta, classify, rnd, Int.fract, abs_div, abs_neg]

/-- C6 amended: the second application of the limiter changes nothing
provided the re-parsed turnover of the first application does not exceed
the limit; the rounding of rewritten targets can otherwise trigger a
second, different scaling. -/
theorem limiter_idempotent_within_limit (limit : ℚ) (out : List OutRow)
    (h : proposed_turnover (limit_turnover limit out) ≤ limit) :
    limit_turnover limit (limit_turnover limit out) = limit_turnover limit out :=
  limit_turnover_of_not_trigger _ _ (fun hcon => absurd h (not_le.mpr hcon.1))

/-- Witness for the amended C6: a single small trade is left alone by
the first pass and its turnover stays within the cap, so the second pass
changes nothing. -/
theorem limiter_idempotent_within_limit_witness :
    proposed_turnover (limit_turnover 1000 [OutRow.mk "MON100" 0 10 Action.HOLD]) ≤
      1000 ∧
    limit_turnover 1000 (limit_turnover 1000 [OutRow.mk "MON100" 0 10 Action.HOLD]) =
      limit_turnover 1000 [OutRow.mk "MON100" 0 10 Action.HOLD] := by
  have h : proposed_turnover
      (limit_turnover 1000 [OutRow.mk "MON100" 0 10 Action.HOLD]) ≤ 1000 := by
    norm_num [limit_turnover, proposed_turnover]
  exact ⟨h, limiter_idempotent_within_limit 1000 _ h⟩

/-- C7 counterexample: the measured turnover is not the exact sum of
the trade deltas.  With weight one half, portfolio value 1001 and no
holding, the exact delta is 500.5 but the display round trip stores 500,
so the measured turnover is 500. -/
theorem proposed_turnover_not_exact :
    proposed_turnover (make_output ["NIFTYBEES"] (fun _ => 1/2) 1001 (fun _ => 0)) ≠
      |(1001 : ℚ) * (1/2) - 0| := by
  have h1 : ((rnd ((0 : ℚ)) : ℤ) : ℚ) = 0 := by
    norm_num [rnd, Int.fract]
  have h2 : ((rnd ((1001 : ℚ) * 2⁻¹) : ℤ) : ℚ) = 500 := by
    norm_num [rnd, Int.fract]
  have h3 : classify ((1001 : ℚ) * 2⁻¹) = Action.HOLD := by
    norm_num [classify, rnd, Int.fract, abs_div]
  have hrow : make_output ["NIFTYBEES"] (fun _ => 1/2) 1001 (fun _ => 0) =
      [OutRow.mk "NIFTYBEES" 0 500 Action.HOLD] := by
    simp [make_output, h1, h2, h3]
  rw [hrow]
  norm_num [proposed_turnover, abs_div]

/-- C7 amended: the proposed turnover equals the sum over all
instruments, HOLD rows included, of the absolute difference of the
whole-rupee rounded target amount and the whole-rupee rounded holding,
the rounding being the display-string round trip; when every target
amount and holding is integer valued this coincides with the exact sum
of the trade deltas. -/
theorem proposed_turnover_is_rounded_sum (names : List String)
    (final holds : String → ℚ) (total : ℚ) :
    proposed_turnover (make_output names final total holds) =
      (names.map (fun etf =>
        |((rnd (total * final etf) : ℤ) : ℚ) - ((rnd (holds etf) : ℤ) : ℚ)|)).sum ∧
    ((∀ etf ∈ names, (∃ a : ℤ, total * final etf = (a : ℚ)) ∧
        (∃ b : ℤ, holds etf = (b : ℚ))) →
      proposed_turnover (make_output names final total holds) =
        (names.map (fun etf => |total * final etf - holds etf|)).sum) := by
  have h1 : proposed_turnover (make_output names final total holds) =
      (names.map (fun etf =>
        |((rnd (total * final etf) : ℤ) : ℚ) - ((rnd (holds etf) : ℤ) : ℚ)|)).sum := by
    unfold proposed_turnover make_output
    rw [List.map_map]
    rfl
  refine ⟨h1, ?_⟩
  intro hint
  rw [h1]
  apply congrArg List.sum
  apply List.map_congr_left
  intro etf hmem
  obtain ⟨⟨a, ha⟩, ⟨b, hb⟩⟩ := hint etf hmem
  rw [ha, hb, rnd_intCast, rnd_intCast]

/-- Witness for the amended C7: integer target amount 500 and integer
holding 3, where the measured turnover equals the exact delta sum. -/
theorem proposed_turnover_is_rounded_sum_witness :
    (∀ etf ∈ ["NIFTYBEES"], (∃ a : ℤ, (1000 : ℚ) * (fun _ => (1/2 : ℚ)) etf = (a : ℚ)) ∧
        (∃ b : ℤ, (fun _ => (3 : ℚ)) etf = (b : ℚ))) ∧
    proposed_turnover (make_output ["NIFTYBEES"] (fun _ => 1/2) 1000 (fun _ => 3)) =
      (["NIFTYBEES"].map (fun etf =>
        |(1000 : ℚ) * (fun _ => (1/2 : ℚ)) etf - (fun _ => (3 : ℚ)) etf|)).sum := by
  have hint : ∀ etf ∈ ["NIFTYBEES"],
      (∃ a : ℤ, (1000 : ℚ) * (fun _ => (1/2 : ℚ)) etf = (a : ℚ)) ∧
      (∃ b : ℤ, (fun _ => (3 : ℚ)) etf = (b : ℚ)) := by
    intro etf _
    exact ⟨⟨500, by norm_num⟩, ⟨3, by norm_num⟩⟩
  exact ⟨hint,
    (proposed_turnover_is_rounded_sum ["NIFTYBEES"] (fun _ => 1/2) (fun _ => 3)
      1000).2 hint⟩

/-- C8 counterexample: when no instrument is momentum eligible but the
safe instrument itself is classified Overvalued, the override zeroes the
fallback tactical weight, so the final weight of the safe instrument is
its core weight alone instead of core plus momentum fraction. -/
theorem safe_fallback_overvalued_cex :
    momentum_candidates ["LIQUIDBEES"]
        (fun _ => some (Metrics.mk 130 100 100 none)) = [] ∧
    tactical_allocation ["LIQUIDBEES"]
        (fun _ => some (Metrics.mk 130 100 100 none)) (1/20) SAFE = 1/20 ∧
    final_target ["LIQUIDBEES"]
        (dget (core_targets [("Safe", 1/5)] (fun _ => some [("LIQUIDBEES", 1)])))
        (tactical_allocation ["LIQUIDBEES"]
          (fun _ => some (Metrics.mk 130 100 100 none)) (1/20))
        (fun _ => some (Metrics.mk 130 100 100 none)) SAFE ≠
      dget (core_targets [("Safe", 1/5)] (fun _ => some [("LIQUIDBEES", 1)])) SAFE +
        1/20 := by
  refine ⟨rfl, rfl, ?_⟩
  norm_num [final_target, sum_raw, final_target_raw, overvaluedAt,
    classify_valuation, tactical_allocation, sorted_candidates,
    momentum_candidates, candidate_of, SAFE, dget, core_targets, List.lookup,
    List.insertionSort, List.filterMap_cons, List.filterMap_nil]

/-- C8 amended: when no instrument is momentum eligible, the safe
instrument receives the momentum fraction as tactical allocation, and,
provided the safe instrument is not itself classified Overvalued and
the blended weights sum to at most 1, its final target weight equals
its bucket target fraction times its within-bucket weight plus the
momentum fraction. -/
theorem safe_fallback_weight (names : List String)
    (metrics : String → Option Metrics) (pct : ℚ)
    (bucket_targets : List (String × ℚ))
    (within : String → Option (List (String × ℚ)))
    (hempty : momentum_candidates names metrics = [])
    (hval : overvaluedAt metrics SAFE = false)
    (hsum : sum_raw names (dget (core_targets bucket_targets within))
        (tactical_allocation names metrics pct) metrics ≤ 1) :
    tactical_allocation names metrics pct SAFE = pct ∧
    final_target names (dget (core_targets bucket_targets within))
        (tactical_allocation names metrics pct) metrics SAFE =
      dget (core_targets bucket_targets within) SAFE + pct := by
  have hsorted : sorted_candidates names metrics = [] :=
    sorted_candidates_eq_nil_iff.mpr hempty
  have htact : tactical_allocation names metrics pct SAFE = pct := by
    simp [tactical_allocation, hsorted]
  refine ⟨htact, ?_⟩
  unfold final_target
  rw [if_neg (not_lt.mpr hsum)]
  unfold final_target_raw
  rw [hval, htact]
  simp

/-- Witness for the amended C8: a lone safe instrument with absent
metrics, a Safe bucket target of one fifth and full within-bucket
weight, and a momentum fraction of one twentieth; its final weight is
one fifth plus one twentieth. -/
theorem safe_fallback_weight_witness :
    momentum_candidates ["LIQUIDBEES"] (fun _ => none) = [] ∧
    overvaluedAt (fun _ => none) SAFE = false ∧
    sum_raw ["LIQUIDBEES"]
        (dget (core_targets [("Safe", 1/5)] (fun _ => some [("LIQUIDBEES", 1)])))
        (tactical_allocation ["LIQUIDBEES"] (fun _ => none) (1/20))
        (fun _ => none) ≤ 1 ∧
    (tactical_allocation ["LIQUIDBEES"] (fun _ => none) (1/20) SAFE = 1/20 ∧
     final_target ["LIQUIDBEES"]
        (dget (core_targets [("Safe", 1/5)] (fun _ => some [("LIQUIDBEES", 1)])))
        (tactical_allocation ["LIQUIDBEES"] (fun _ => none) (1/20))
        (fun _ => none) SAFE =
      dget (core_targets [("Safe", 1/5)] (fun _ => some [("LIQUIDBEES", 1)])) SAFE +
        1/20) := by
  have hsum : sum_raw ["LIQUIDBEES"]
      (dget (core_targets [("Safe", 1/5)] (fun _ => some [("LIQUIDBEES", 1)])))
      (tactical_allocation ["LIQUIDBEES"] (fun _ => none) (1/20))
      (fun _ => none) ≤ 1 := by
    norm_num [sum_raw, final_target_raw, overvaluedAt, tactical_allocation,
      sorted_candidates, momentum_candidates, candidate_of, SAFE, dget,
      core_targets, List.lookup, List.insertionSort, List.filterMap_cons,
      List.filterMap_nil]
  exact ⟨rfl, rfl, hsum,
    safe_fallback_weight ["LIQUIDBEES"] (fun _ => none) (1/20) [("Safe", 1/5)]
      (fun _ => some [("LIQUIDBEES", 1)]) rfl rfl hsum⟩

/-- C9 counterexample: the safe instrument with absent metrics, in a run
with no eligible candidate, does not receive its core weight as its
target: the fallback adds the momentum fraction, so its blended target
is core plus momentum fraction rather than the core-only target the
claim states for every absent-metrics instrument. -/
theorem absent_metrics_core_only_cex :
    (fun _ : String => (none : Option Metrics)) SAFE = none ∧
    final_target_raw (fun _ => 1/5)
        (tactical_allocation ["LIQUIDBEES"] (fun _ => none) (1/20))
        (fun _ => none) SAFE ≠ (1/5 : ℚ) := by
  refine ⟨rfl, ?_⟩
  norm_num [final_target_raw, overvaluedAt, tactical_allocation,
    sorted_candidates, momentum_candidates, candidate_of, SAFE,
    List.insertionSort, List.filterMap_cons, List.filterMap_nil]

/-- C9 amended: an instrument with absent metrics is excluded from
momentum eligibility; it receives exactly its core weight as blended
target, except the safe instrument in the fallback case, which receives
core plus the momentum fraction; and the run always produces exactly one
output row per instrument. -/
theorem absent_metrics_graceful (names : List String)
    (metrics : String → Option Metrics) (pct : ℚ) (core holds : String → ℚ)
    (total : ℚ) (etf : String) (h : metrics etf = none) :
    (∀ r : ℚ, (etf, r) ∉ momentum_candidates names metrics) ∧
    (etf ≠ SAFE →
      final_target_raw core (tactical_allocation names metrics pct) metrics etf =
        core etf) ∧
    (momentum_candidates names metrics ≠ [] →
      final_target_raw core (tactical_allocation names metrics pct) metrics etf =
        core etf) ∧
    (etf = SAFE → momentum_candidates names metrics = [] →
      final_target_raw core (tactical_allocation names metrics pct) metrics etf =
        core etf + pct) ∧
    (make_output names
        (final_target names core (tactical_allocation names metrics pct) metrics)
        total holds).length = names.length := by
  have hov : overvaluedAt metrics etf = false := by
    simp [overvaluedAt, h]
  have hexcl : ∀ r : ℚ, (etf, r) ∉ momentum_candidates names metrics := by
    intro r hmem
    obtain ⟨a, _, hca⟩ := List.mem_filterMap.mp hmem
    obtain ⟨hfst, _, m, hm, _⟩ := candidate_of_eq_some hca
    have hfst' : etf = a := hfst
    rw [hfst'] at h
    rw [h] at hm
    exact Option.noConfusion hm
  cases hs : sorted_candidates names metrics with
  | nil =>
    have hcand : momentum_candidates names metrics = [] :=
      sorted_candidates_eq_nil_iff.mp hs
    refine ⟨hexcl, ?_, ?_, ?_, by simp [make_output]⟩
    · intro hne
      unfold final_target_raw
      rw [hov]
      simp [tactical_allocation, hs, hne]
    · intro hne
      exact absurd hcand hne
    · intro hse _
      unfold final_target_raw
      rw [hov]
      simp [tactical_allocation, hs, hse]
  | cons top rest =>
    have hcand : momentum_candidates names metrics ≠ [] := by
      intro hnil
      exact absurd ((sorted_candidates_eq_nil_iff.mpr hnil).symm.trans hs) (by simp)
    have hne2 : etf ≠ top.1 := by
      obtain ⟨hmem, _⟩ := head_sorted_max hs
      obtain ⟨a, _, hca⟩ := List.mem_filterMap.mp hmem
      obtain ⟨hfst, _, m, hm, _⟩ := candidate_of_eq_some hca
      have hfst' : top.1 = a := hfst
      intro heq
      rw [heq, hfst'] at h
      rw [h] at hm
      exact Option.noConfusion hm
    have hraw : final_target_raw core (tactical_allocation names metrics pct)
        metrics etf = core etf := by
      unfold final_target_raw
      rw [hov]
      simp [tactical_allocation, hs, hne2]
    exact ⟨hexcl, fun _ => hraw, fun _ => hraw,
      fun _ hnil => absurd hnil hcand, by simp [make_output]⟩

/-- Witness for the amended C9 at a non-safe instrument with absent
metrics: it is no candidate, its blended target is its core weight, and
the output has one row per instrument. -/
theorem absent_metrics_graceful_witness :
    (fun _ : String => (none : Option Metrics)) "MON100" = none ∧
    ((∀ r : ℚ, ("MON100", r) ∉ momentum_candidates ["MON100"] (fun _ => none)) ∧
    ("MON100" ≠ SAFE →
      final_target_raw (fun _ => 1/10)
        (tactical_allocation ["MON100"] (fun _ => none) (1/20))
        (fun _ => none) "MON100" = (fun _ : String => (1/10 : ℚ)) "MON100") ∧
    (momentum_candidates ["MON100"] (fun _ => none) ≠ [] →
      final_target_raw (fun _ => 1/10)
        (tactical_allocation ["MON100"] (fun _ => none) (1/20))
        (fun _ => none) "MON100" = (fun _ : String => (1/10 : ℚ)) "MON100") ∧
    ("MON100" = SAFE → momentum_candidates ["MON100"] (fun _ => none) = [] →
      final_target_raw (fun _ => 1/10)
        (tactical_allocation ["MON100"] (fun _ => none) (1/20))
        (fun _ => none) "MON100" = (fun _ : String => (1/10 : ℚ)) "MON100" + 1/20) ∧
    (make_output ["MON100"]
        (final_target ["MON100"] (fun _ => 1/10)
          (tactical_allocation ["MON100"] (fun _ => none) (1/20)) (fun _ => none))
        100 (fun _ => 0)).length = ["MON100"].length) :=
  ⟨rfl,
    absent_metrics_graceful ["MON100"] (fun _ => none) (1/20) (fun _ => 1/10)
      (fun _ => 0) 100 "MON100" rfl⟩

end TradeSetup
